import Mathlib

/-!
# A shallow embedding of the `render` response engine (`engine.go`)

This file models the six format renderers (`Data`, `HTML`, `JSON`, `JSONP`,
`Text`, `XML`) of the `render` package and proves properties of their
header-writing, buffering and encoding behaviour.

The sink (`io.Writer`, optionally `http.ResponseWriter`) is modelled as a
state holding the header map, the body bytes successfully written, and a
chronological event trace.  The external serialization libraries
(`encoding/json`, `encoding/xml`) and the template set (`html/template`)
are external collaborators of the package: they are passed in as function
parameters (oracles), exactly as the engine code treats them as opaque.
-/

/-- A Go `interface{}` value as far as the engine inspects it: the engine
only ever type-asserts to `[]byte` (in `Data.Render`) and `string`
(in `Text.Render`); every other runtime type is opaque to it. -/
inductive GoValue where
  | bytes (bs : List Nat)
  | str (s : String)
  | other
deriving DecidableEq, Repr

/-- Outcome of a `Render` call: the returned `error` value (`ok` for `nil`,
`err` for a non-nil error), or a runtime panic (a failed type assertion,
which in Go aborts the call without returning an error). -/
inductive RenderResult where
  | ok
  | err (e : String)
  | panicked
deriving DecidableEq, Repr

/-- One observable operation performed on the sink. -/
inductive SinkEvent where
  | setHeader (key value : String)
  | writeStatus (code : Nat)
  | write (bytes : List Nat)
deriving DecidableEq, Repr

/-- The sink: an `io.Writer` that may additionally implement
`http.ResponseWriter` (`headerCapable`).  `body` accumulates successfully
written bytes, `events` is the chronological trace of operations, and
`writeError`, when set, makes every body write fail (the sink rejects the
write and stores nothing). -/
structure Sink where
  headerCapable : Bool
  headers : List (String × String) := []
  events : List SinkEvent := []
  body : List Nat := []
  writeError : Option String := none
deriving DecidableEq, Repr

/-- `hw.Header().Get(key)`: Go returns the empty string when the key is
absent. -/
def Sink.headerGet (w : Sink) (key : String) : String :=
  match w.headers.lookup key with
  | some v => v
  | none => ""

/-- `hw.Header().Set(key, value)`: replaces any existing value for the key. -/
def Sink.headerSet (w : Sink) (key value : String) : Sink :=
  { w with
    headers := (key, value) :: w.headers.filter (fun p => p.1 ≠ key),
    events := w.events ++ [SinkEvent.setHeader key value] }

/-- `hw.WriteHeader(code)`: commits the status line. -/
def Sink.writeHeader (w : Sink) (code : Nat) : Sink :=
  { w with events := w.events ++ [SinkEvent.writeStatus code] }

/-- `w.Write(bs)`: returns the write error, if any; on success appends the
bytes to the body and records the event. -/
def Sink.write (w : Sink) (bs : List Nat) : Sink × Option String :=
  match w.writeError with
  | some e => (w, some e)
  | none =>
      ({ w with
          body := w.body ++ bs,
          events := w.events ++ [SinkEvent.write bs] }, none)

/-- Modelled from the spec: the `ContentType` header-key constant of the
`render` package is declared outside `engine.go` (in the package's
`render.go`, which is not part of the vendored source); it is the
standard content-type header key.  Named `ContentTypeKey` here because
`ContentType` is taken by the `Head` field of the same name. -/
def ContentTypeKey : String := "Content-Type"

/-- `Head` defines the basic ContentType and Status fields. -/
structure Head where
  ContentType : String
  Status : Nat
deriving DecidableEq, Repr

/-- `Head.Write` outputs the header content: sets the content-type header,
then writes the status code. -/
def Head.Write (h : Head) (w : Sink) : Sink :=
  (w.headerSet ContentTypeKey h.ContentType).writeHeader h.Status

/-- Modelled from the spec: the shared buffer pool (`bufPool`), declared
outside `engine.go`, is a channel-based pool of byte buffers with a fixed
capacity.  `Get` takes a pooled buffer when one is available (otherwise a
fresh buffer is allocated, leaving the pool empty); `Put` returns a buffer
when the pool is below capacity (otherwise the buffer is discarded).  Only
the count of pooled buffers is observable here. -/
structure BufPool where
  available : Nat
  capacity : Nat
deriving DecidableEq, Repr

/-- Acquire a buffer from the pool. -/
def BufPool.get (p : BufPool) : BufPool :=
  { p with available := p.available - 1 }

/-- Release a buffer back to the pool. -/
def BufPool.put (p : BufPool) : BufPool :=
  if p.available < p.capacity then { p with available := p.available + 1 } else p

/-- The compiled template set (`*template.Template`), an external
collaborator: `ExecuteTemplate` renders the named template against a
binding, producing the expanded bytes or an execution error. -/
structure TemplateSet where
  ExecuteTemplate : String → GoValue → Except String (List Nat)

/-- The `encoding/json` collaborator: `Marshal` and
`MarshalIndent` (with empty line prefix and two-space indent) produce the
serialized bytes or an encoding error. -/
structure JsonLib where
  Marshal : GoValue → Except String (List Nat)
  MarshalIndent : GoValue → Except String (List Nat)

/-- The `encoding/xml` collaborator, mirroring `JsonLib`. -/
structure XmlLib where
  Marshal : GoValue → Except String (List Nat)
  MarshalIndent : GoValue → Except String (List Nat)

/-- `Data` built-in renderer. -/
structure Data extends Head where
deriving DecidableEq, Repr

/-- `HTML` built-in renderer. -/
structure HTML extends Head where
  Name : String
  Templates : TemplateSet

/-- `JSON` built-in renderer.  `PrefixBytes` is the `Prefix` option of the
source (the byte prefix prepended to the body). -/
structure JSON extends Head where
  Indent : Bool
  UnEscapeHTML : Bool
  PrefixBytes : List Nat
  StreamingJSON : Bool
deriving DecidableEq, Repr

/-- `JSONP` built-in renderer. -/
structure JSONP extends Head where
  Indent : Bool
  Callback : String
deriving DecidableEq, Repr

/-- `Text` built-in renderer. -/
structure Text extends Head where
deriving DecidableEq, Repr

/-- `XML` built-in renderer.  `PrefixBytes` is the `Prefix` option of the
source. -/
structure XML extends Head where
  Indent : Bool
  PrefixBytes : List Nat
deriving DecidableEq, Repr

/-- The bytes of a Go string literal (code points; all strings used by the
engine are ASCII). -/
def strBytes (s : String) : List Nat :=
  s.data.map Char.toNat

/-- `bytes.Replace(s, pat, rep, -1)`: replace every non-overlapping
occurrence of `pat` in `s` by `rep`, scanning left to right. -/
def replaceAll (pat rep : List Nat) (s : List Nat) : List Nat :=
  if h : pat ≠ [] ∧ pat <+: s then
    rep ++ replaceAll pat rep (s.drop pat.length)
  else
    match s with
    | [] => []
    | a :: s' => a :: replaceAll pat rep s'
termination_by s.length
decreasing_by
  · have h1 : 0 < pat.length := List.length_pos.mpr h.1
    have h2 : pat.length ≤ s.length := h.2.length_le
    simp only [List.length_drop]
    omega
  · simp only [List.length_cons]
    omega

/-- The byte sequence `<`. -/
def escLt : List Nat := strBytes ("\\u003c")

/-- The byte sequence `>`. -/
def escGt : List Nat := strBytes ("\\u003e")

/-- The byte sequence `&`. -/
def escAmp : List Nat := strBytes ("\\u0026")

/-- The unescape post-processing of `JSON.Render` when `UnEscapeHTML` is
set: `<` → `<`, then `>` → `>`, then `&` → `&`. -/
def unescapeHTML (result : List Nat) : List Nat :=
  replaceAll escAmp [38] (replaceAll escGt [62] (replaceAll escLt [60] result))

/-- `Data.Render`: headers first (preserving a pre-existing content-type),
then the body via a `[]byte` type assertion (a panic on any other type). -/
def Data.Render (d : Data) (w : Sink) (v : GoValue) : Sink × RenderResult :=
  let w₁ :=
    if w.headerCapable then
      let c := w.headerGet ContentTypeKey
      let head := if c ≠ "" then { d.toHead with ContentType := c } else d.toHead
      head.Write w
    else w
  match v with
  | GoValue.bytes bs => ((w₁.write bs).1, RenderResult.ok)
  | _ => (w₁, RenderResult.panicked)

/-- `HTML.Render`: executes the template into a pooled buffer; on failure
returns the error (without releasing the buffer); on success writes headers,
flushes the buffer to the sink and releases the buffer.  The global
`bufPool` is threaded explicitly. -/
def HTML.Render (h : HTML) (pool : BufPool) (w : Sink) (binding : GoValue) :
    BufPool × Sink × RenderResult :=
  let pool₁ := pool.get
  match h.Templates.ExecuteTemplate h.Name binding with
  | Except.error e => (pool₁, w, RenderResult.err e)
  | Except.ok out =>
      let w₁ := if w.headerCapable then h.toHead.Write w else w
      let w₂ := (w₁.write out).1
      (pool₁.put, w₂, RenderResult.ok)

/-- `JSON.renderStreamingJSON`: headers and prefix immediately, then
`json.NewEncoder(w).Encode(v)`, whose error (an encoding failure, or the
sink's write failure) is returned.  Go's `Encoder.Encode` writes the
marshalled bytes followed by a newline. -/
def JSON.renderStreamingJSON (j : JSON) (lib : JsonLib) (w : Sink) (v : GoValue) :
    Sink × RenderResult :=
  let w₁ := if w.headerCapable then j.toHead.Write w else w
  let w₂ := if j.PrefixBytes.length > 0 then (w₁.write j.PrefixBytes).1 else w₁
  match lib.Marshal v with
  | Except.error e => (w₂, RenderResult.err e)
  | Except.ok bs =>
      match w₂.write (bs ++ [10]) with
      | (w₃, some e) => (w₃, RenderResult.err e)
      | (w₃, none) => (w₃, RenderResult.ok)

/-- `JSON.Render` (buffered mode unless `StreamingJSON`): marshal (indent
appends a newline), return any marshal error, optionally unescape HTML
entities, then headers, prefix, body. -/
def JSON.Render (j : JSON) (lib : JsonLib) (w : Sink) (v : GoValue) :
    Sink × RenderResult :=
  if j.StreamingJSON then j.renderStreamingJSON lib w v
  else
    let me : List Nat × Option String :=
      if j.Indent then
        match lib.MarshalIndent v with
        | Except.ok r => (r ++ [10], none)
        | Except.error e => ([] ++ [10], some e)
      else
        match lib.Marshal v with
        | Except.ok r => (r, none)
        | Except.error e => ([], some e)
    match me.2 with
    | some e => (w, RenderResult.err e)
    | none =>
        let result := if j.UnEscapeHTML then unescapeHTML me.1 else me.1
        let w₁ := if w.headerCapable then j.toHead.Write w else w
        let w₂ := if j.PrefixBytes.length > 0 then (w₁.write j.PrefixBytes).1 else w₁
        ((w₂.write result).1, RenderResult.ok)

/-- `JSONP.Render`: marshal (optionally indented), return any marshal
error, then headers, `callback(`, the serialized bytes, `);`, and a
newline when indenting. -/
def JSONP.Render (j : JSONP) (lib : JsonLib) (w : Sink) (v : GoValue) :
    Sink × RenderResult :=
  let me : List Nat × Option String :=
    if j.Indent then
      match lib.MarshalIndent v with
      | Except.ok r => (r, none)
      | Except.error e => ([], some e)
    else
      match lib.Marshal v with
      | Except.ok r => (r, none)
      | Except.error e => ([], some e)
  match me.2 with
  | some e => (w, RenderResult.err e)
  | none =>
      let w₁ := if w.headerCapable then j.toHead.Write w else w
      let w₂ := (w₁.write (strBytes (j.Callback ++ "("))).1
      let w₃ := (w₂.write me.1).1
      let w₄ := (w₃.write (strBytes (");"))).1
      let w₅ := if j.Indent then (w₄.write [10]).1 else w₄
      (w₅, RenderResult.ok)

/-- `Text.Render`: headers first (preserving a pre-existing content-type),
then the body via a `string` type assertion (a panic on any other type). -/
def Text.Render (t : Text) (w : Sink) (v : GoValue) : Sink × RenderResult :=
  let w₁ :=
    if w.headerCapable then
      let c := w.headerGet ContentTypeKey
      let head := if c ≠ "" then { t.toHead with ContentType := c } else t.toHead
      head.Write w
    else w
  match v with
  | GoValue.str s => ((w₁.write (strBytes s)).1, RenderResult.ok)
  | _ => (w₁, RenderResult.panicked)

/-- `XML.Render`: marshal (indent appends a newline), return any marshal
error, then headers, prefix, body. -/
def XML.Render (x : XML) (lib : XmlLib) (w : Sink) (v : GoValue) :
    Sink × RenderResult :=
  let me : List Nat × Option String :=
    if x.Indent then
      match lib.MarshalIndent v with
      | Except.ok r => (r ++ [10], none)
      | Except.error e => ([] ++ [10], some e)
    else
      match lib.Marshal v with
      | Except.ok r => (r, none)
      | Except.error e => ([], some e)
  match me.2 with
  | some e => (w, RenderResult.err e)
  | none =>
      let w₁ := if w.headerCapable then x.toHead.Write w else w
      let w₂ := if x.PrefixBytes.length > 0 then (w₁.write x.PrefixBytes).1 else w₁
      ((w₂.write me.1).1, RenderResult.ok)

/-- Is this sink event part of header writing (content-type set or status
write), as opposed to a body write? -/
def SinkEvent.isHeaderEvent : SinkEvent → Bool
  | SinkEvent.setHeader _ _ => true
  | SinkEvent.writeStatus _ => true
  | SinkEvent.write _ => false

/-- No header-writing event occurs in the trace. -/
def noHeaderEvents (l : List SinkEvent) : Bool :=
  l.all fun e => !e.isHeaderEvent

/-- Some body-write event occurs in the trace. -/
def hasBodyWrite (l : List SinkEvent) : Bool :=
  l.any fun e => !e.isHeaderEvent

/-- All header-writing events of the trace occur strictly before all body
writes: the trace is a block of header events followed by a block of body
writes. -/
def headersBeforeBodyB : List SinkEvent → Bool
  | [] => true
  | e :: rest => if e.isHeaderEvent then headersBeforeBodyB rest else noHeaderEvents rest

/-- Number of status-line writes (`WriteHeader` calls) in the trace. -/
def statusWrites (l : List SinkEvent) : Nat :=
  (l.filter fun e =>
    match e with
    | SinkEvent.writeStatus _ => true
    | _ => false).length

/-- The header discipline of a render call observed on an initially
event-free sink: header events all precede body writes; on a sink without
header capability no header event occurs at all; on a header-capable sink
the status is written at most once, and exactly once whenever the call
succeeds or writes any body data. -/
def headerDiscipline (capable : Bool) (res : RenderResult) (evts : List SinkEvent) : Prop :=
  headersBeforeBodyB evts = true ∧
  (capable = false → noHeaderEvents evts = true) ∧
  (capable = true → statusWrites evts ≤ 1 ∧
    (res = RenderResult.ok → statusWrites evts = 1) ∧
    (hasBodyWrite evts = true → statusWrites evts = 1))

/-- Number of trailing newline bytes of a byte sequence. -/
def trailingNewlines (l : List Nat) : Nat :=
  (l.reverse.takeWhile fun b => b == 10).length

/-- A header-capable sink in its initial state. -/
def wCap : Sink := { headerCapable := true }

/-- A plain writer without header capability. -/
def wPlain : Sink := { headerCapable := false }

/-- A plain writer whose writes all fail (e.g. a reset connection). -/
def wReject : Sink := { headerCapable := false, writeError := some ("connection reset") }

/-- A header-capable sink whose writes all fail. -/
def wCapReject : Sink := { headerCapable := true, writeError := some ("connection reset") }

/-- A header-capable sink with a pre-existing content-type header. -/
def wCustom : Sink :=
  { headerCapable := true, headers := [(ContentTypeKey, "text/custom")] }

/-- A `Data` renderer configuration. -/
def dData : Data := { ContentType := "application/octet-stream", Status := 200 }

/-- A `Text` renderer configuration. -/
def tText : Text := { ContentType := "text/plain; charset=utf-8", Status := 200 }

/-- A template set whose execution always fails. -/
def tmplBoom : TemplateSet := ⟨fun _ _ => Except.error ("template: boom")⟩

/-- A template set whose execution always succeeds. -/
def tmplHello : TemplateSet := ⟨fun _ _ => Except.ok (strBytes ("<p>hi</p>"))⟩

/-- An `HTML` renderer over the failing template set. -/
def hBoom : HTML :=
  { ContentType := "text/html; charset=utf-8", Status := 200, Name := "t", Templates := tmplBoom }

/-- An `HTML` renderer over the succeeding template set. -/
def hHello : HTML :=
  { ContentType := "text/html; charset=utf-8", Status := 200, Name := "t", Templates := tmplHello }

/-- A JSON library whose encoding always fails (e.g. an unsupported type). -/
def jsonFailLib : JsonLib :=
  ⟨fun _ => Except.error ("json: unsupported type"), fun _ => Except.error ("json: unsupported type")⟩

/-- An XML library whose encoding always fails. -/
def xmlFailLib : XmlLib :=
  ⟨fun _ => Except.error ("xml: unsupported type"), fun _ => Except.error ("xml: unsupported type")⟩

/-- A JSON library that serializes every value to `{}`. -/
def libBrace : JsonLib :=
  ⟨fun _ => Except.ok (strBytes ("\x7b\x7d")), fun _ => Except.ok (strBytes ("\x7b\x7d"))⟩

/-- A JSON library that serializes every value to `{"a":1}`. -/
def libAb1 : JsonLib :=
  ⟨fun _ => Except.ok (strBytes ("\x7b\"a\":1\x7d")),
   fun _ => Except.ok (strBytes ("\x7b\"a\":1\x7d"))⟩

/-- A JSON library that serializes every value to `{"a":"\u003cb\u003e \u0026"}`,
the escaped encoding of a string field containing `<b> &`. -/
def libEsc : JsonLib :=
  ⟨fun _ => Except.ok (strBytes ("\x7b\"a\":\"\\u003cb\\u003e \\u0026\"\x7d")),
   fun _ => Except.ok (strBytes ("\x7b\"a\":\"\\u003cb\\u003e \\u0026\"\x7d"))⟩

/-- An XML library that serializes every value to `<a></a>`. -/
def xmlOkLib : XmlLib :=
  ⟨fun _ => Except.ok (strBytes ("<a></a>")), fun _ => Except.ok (strBytes ("<a></a>"))⟩

/-- A buffered, non-indented JSON renderer configuration. -/
def jPlain : JSON :=
  { ContentType := "application/json; charset=utf-8", Status := 200,
    Indent := false, UnEscapeHTML := false, PrefixBytes := [], StreamingJSON := false }

/-- The indented variant of `jPlain`. -/
def jIndent : JSON := { jPlain with Indent := true }

/-- The streaming variant of `jPlain`. -/
def jStream : JSON := { jPlain with StreamingJSON := true }

/-- The HTML-unescaping variant of `jPlain`. -/
def jUnescape : JSON := { jPlain with UnEscapeHTML := true }

/-- A JSONP renderer with callback `cb`. -/
def jpCb : JSONP :=
  { ContentType := "application/javascript; charset=utf-8", Status := 200,
    Indent := false, Callback := "cb" }

/-- The indented variant of `jpCb`. -/
def jpCbIndent : JSONP := { jpCb with Indent := true }

/-- A non-indented XML renderer configuration. -/
def xPlain : XML :=
  { ContentType := "text/xml; charset=utf-8", Status := 200, Indent := false, PrefixBytes := [] }

/-- The indented variant of `xPlain`. -/
def xIndent : XML := { xPlain with Indent := true }

theorem replaceAll_nil (pat rep : List Nat) : replaceAll pat rep [] = [] := by
  conv_lhs => rw [replaceAll]
  simp [List.prefix_nil]

theorem replaceAll_pos (pat rep s : List Nat) (h1 : pat ≠ []) (h2 : pat <+: s) :
    replaceAll pat rep s = rep ++ replaceAll pat rep (s.drop pat.length) := by
  conv_lhs => rw [replaceAll]
  rw [dif_pos ⟨h1, h2⟩]

theorem replaceAll_cons (pat rep : List Nat) (a : Nat) (s' : List Nat)
    (h : ¬ (pat ≠ [] ∧ pat <+: a :: s')) :
    replaceAll pat rep (a :: s') = a :: replaceAll pat rep s' := by
  conv_lhs => rw [replaceAll]
  rw [dif_neg h]

theorem mem_of_prefix_cons {u : List Nat} {c : Nat} {t : List Nat}
    (hu : u ≠ []) (h : u <+: c :: t) : c ∈ u := by
  cases u with
  | nil => exact absurd rfl hu
  | cons b u' =>
      rw [List.cons_prefix_cons] at h
      rw [h.1]
      exact List.mem_cons_self _ _

theorem prefix_transfer (pat : List Nat) (c : Nat) :
    ∀ s u, c ∉ u → u <+: replaceAll pat [c] s → u = [] ∨ u <+: s := by
  intro s
  induction s using replaceAll.induct pat [c] with
  | case1 x hcond ih =>
      intro u hc hu
      rw [replaceAll_pos pat [c] x hcond.1 hcond.2] at hu
      rcases eq_or_ne u [] with h | h
      · exact Or.inl h
      · exact absurd (mem_of_prefix_cons h hu) hc
  | case2 h1 h2 =>
      intro u hc hu
      rw [replaceAll_nil] at hu
      exact Or.inl (List.prefix_nil.mp hu)
  | case3 a s' hcond hcond2 ih =>
      intro u hc hu
      rw [replaceAll_cons pat [c] a s' hcond] at hu
      cases u with
      | nil => exact Or.inl rfl
      | cons b u' =>
          rw [List.cons_prefix_cons] at hu
          rcases ih u' (fun hm => hc (List.mem_cons_of_mem _ hm)) hu.2 with h | h
          · refine Or.inr ?_
            rw [List.cons_prefix_cons, h]
            exact ⟨hu.1, List.nil_prefix⟩
          · refine Or.inr ?_
            rw [List.cons_prefix_cons]
            exact ⟨hu.1, h⟩

theorem infix_transfer (pat : List Nat) (c : Nat) :
    ∀ s u, c ∉ u → u <:+: replaceAll pat [c] s → u <:+: s := by
  intro s
  induction s using replaceAll.induct pat [c] with
  | case1 x hcond ih =>
      intro u hc hu
      rw [replaceAll_pos pat [c] x hcond.1 hcond.2] at hu
      rcases List.infix_cons_iff.mp hu with h | h
      · rcases eq_or_ne u [] with h0 | h0
        · rw [h0]; exact List.nil_infix
        · exact absurd (mem_of_prefix_cons h0 h) hc
      · exact (ih u hc h).trans (List.drop_suffix _ _).isInfix
  | case2 h1 h2 =>
      intro u hc hu
      rw [replaceAll_nil] at hu
      exact hu
  | case3 a s' hcond hcond2 ih =>
      intro u hc hu
      rw [replaceAll_cons pat [c] a s' hcond] at hu
      rcases List.infix_cons_iff.mp hu with h | h
      · cases u with
        | nil => exact List.nil_infix
        | cons b u' =>
            rw [List.cons_prefix_cons] at h
            rcases prefix_transfer pat c s' u' (fun hm => hc (List.mem_cons_of_mem _ hm)) h.2 with h0 | h0
            · refine List.IsPrefix.isInfix ?_
              rw [List.cons_prefix_cons, h0]
              exact ⟨h.1, List.nil_prefix⟩
            · refine List.IsPrefix.isInfix ?_
              rw [List.cons_prefix_cons]
              exact ⟨h.1, h0⟩
      · exact List.infix_cons (ih u hc h)

theorem replaceAll_no_occurrence (pat : List Nat) (c : Nat) (hcp : c ∉ pat) (hne : pat ≠ []) :
    ∀ s, ¬ pat <:+: replaceAll pat [c] s := by
  intro s
  induction s using replaceAll.induct pat [c] with
  | case1 x hcond ih =>
      intro hocc
      rw [replaceAll_pos pat [c] x hcond.1 hcond.2] at hocc
      rcases List.infix_cons_iff.mp hocc with h | h
      · exact hcp (mem_of_prefix_cons hne h)
      · exact ih h
  | case2 h1 h2 =>
      intro hocc
      rw [replaceAll_nil] at hocc
      exact hne (List.infix_nil.mp hocc)
  | case3 a s' hcond hcond2 ih =>
      intro hocc
      rw [replaceAll_cons pat [c] a s' hcond] at hocc
      rcases List.infix_cons_iff.mp hocc with h | h
      · cases hp : pat with
        | nil => exact hne hp
        | cons b pt =>
            rw [hp, List.cons_prefix_cons] at h
            have h2 := h.2
            rw [← hp] at h2
            rcases prefix_transfer pat c s' pt
                (fun hm => hcp (by rw [hp]; exact List.mem_cons_of_mem _ hm)) h2 with h0 | h0
            · refine hcond ⟨hne, ?_⟩
              rw [hp, h0, List.cons_prefix_cons]
              exact ⟨h.1, List.nil_prefix⟩
            · refine hcond ⟨hne, ?_⟩
              rw [hp, List.cons_prefix_cons]
              exact ⟨h.1, h0⟩
      · exact ih h

theorem replaceAll_mem_rep (pat : List Nat) (c : Nat) (hne : pat ≠ []) :
    ∀ s, pat <:+: s → c ∈ replaceAll pat [c] s := by
  intro s
  induction s using replaceAll.induct pat [c] with
  | case1 x hcond ih =>
      intro hocc
      rw [replaceAll_pos pat [c] x hcond.1 hcond.2]
      exact List.mem_cons_self _ _
  | case2 h1 h2 =>
      intro hocc
      exact absurd (List.infix_nil.mp hocc) hne
  | case3 a s' hcond hcond2 ih =>
      intro hocc
      rw [replaceAll_cons pat [c] a s' hcond]
      rcases List.infix_cons_iff.mp hocc with h | h
      · exact absurd ⟨hne, h⟩ hcond
      · exact List.mem_cons_of_mem _ (ih h)

theorem replaceAll_mem_preserved (pat : List Nat) (c b : Nat) (hb : b ∉ pat) :
    ∀ s, b ∈ s → b ∈ replaceAll pat [c] s := by
  intro s
  induction s using replaceAll.induct pat [c] with
  | case1 x hcond ih =>
      intro hbs
      obtain ⟨rest, hrest⟩ := hcond.2
      rw [replaceAll_pos pat [c] x hcond.1 hcond.2]
      refine List.mem_cons_of_mem _ ?_
      have hdrop : x.drop pat.length = rest := by
        rw [← hrest, List.drop_left]
      rw [hdrop] at ih ⊢
      rw [← hrest, List.mem_append] at hbs
      rcases hbs with h | h
      · exact absurd h hb
      · exact ih h
  | case2 h1 h2 =>
      intro hbs
      exact absurd hbs (List.not_mem_nil b)
  | case3 a s' hcond hcond2 ih =>
      intro hbs
      rw [replaceAll_cons pat [c] a s' hcond]
      rcases List.mem_cons.mp hbs with h | h
      · rw [h]; exact List.mem_cons_self _ _
      · exact List.mem_cons_of_mem _ (ih h)

theorem prefix_intact (hb : Nat) (pt : List Nat) (c : Nat) :
    ∀ s ut, hb ∉ ut → ut <+: s → ut <+: replaceAll (hb :: pt) [c] s := by
  intro s
  induction s using replaceAll.induct (hb :: pt) [c] with
  | case1 x hcond ih =>
      intro ut hhb hu
      rcases eq_or_ne ut [] with h0 | h0
      · rw [h0]; exact List.nil_prefix
      · obtain ⟨rest, hrest⟩ := hcond.2
        rw [← hrest] at hu
        exact absurd (mem_of_prefix_cons h0 hu) hhb
  | case2 h1 h2 =>
      intro ut hhb hu
      rw [replaceAll_nil]
      exact hu
  | case3 a s' hcond hcond2 ih =>
      intro ut hhb hu
      rw [replaceAll_cons (hb :: pt) [c] a s' hcond]
      cases ut with
      | nil => exact List.nil_prefix
      | cons b u' =>
          rw [List.cons_prefix_cons] at hu ⊢
          exact ⟨hu.1, ih u' (fun hm => hhb (List.mem_cons_of_mem _ hm)) hu.2⟩

theorem other_occurrence_preserved (hb : Nat) (pt ut : List Nat) (c : Nat)
    (hlen : pt.length = ut.length) (hne : pt ≠ ut) (h1 : hb ∉ pt) (h2 : hb ∉ ut) :
    ∀ s, (hb :: ut) <:+: s → (hb :: ut) <:+: replaceAll (hb :: pt) [c] s := by
  intro s
  induction s using replaceAll.induct (hb :: pt) [c] with
  | case1 x hcond ih =>
      intro hu
      rw [replaceAll_pos (hb :: pt) [c] x hcond.1 hcond.2]
      obtain ⟨rest, hrest⟩ := hcond.2
      obtain ⟨p, q, hpq⟩ := hu
      have hpq' : p ++ ((hb :: ut) ++ q) = (hb :: pt) ++ rest := by
        rw [← List.append_assoc, hpq, hrest]
      by_cases hlt : p.length < (hb :: pt).length
      · exfalso
        have hidx : (p ++ ((hb :: ut) ++ q))[p.length]? = some hb := by
          rw [List.getElem?_append_right (le_refl _)]
          simp
        rw [hpq'] at hidx
        rw [List.getElem?_append, if_pos hlt] at hidx
        cases hp : p.length with
        | zero =>
            have hpnil : p = [] := List.length_eq_zero.mp hp
            rw [hpnil, List.nil_append] at hpq'
            have hupre : (hb :: ut) <+: (hb :: pt) ++ rest := ⟨q, hpq'⟩
            have hppre : (hb :: pt) <+: (hb :: pt) ++ rest := ⟨rest, rfl⟩
            have hlen' : (hb :: ut).length = (hb :: pt).length := by
              simp [hlen]
            have := (List.prefix_of_prefix_length_le hupre hppre (le_of_eq hlen')).eq_of_length hlen'
            rw [List.cons.injEq] at this
            exact hne (this.2.symm)
        | succ k =>
            rw [hp] at hidx
            have : pt[k]? = some hb := by
              simpa using hidx
            exact h1 (List.getElem?_mem this)
      · push_neg at hlt
        have hdropx : x.drop (hb :: pt).length = rest := by
          rw [← hrest, List.drop_left]
        have hrest2 : rest = p.drop (hb :: pt).length ++ ((hb :: ut) ++ q) := by
          have e1 : ((hb :: pt) ++ rest).drop (hb :: pt).length = rest := List.drop_left _ _
          rw [← hpq'] at e1
          rw [← e1, List.drop_append_eq_append_drop]
          have : (hb :: pt).length - p.length = 0 := by omega
          rw [this, List.drop_zero]
        have hinf : (hb :: ut) <:+: rest :=
          ⟨List.drop (hb :: pt).length p, q, by rw [hrest2, List.append_assoc]⟩
        have := ih (by rw [hdropx]; exact hinf)
        exact List.infix_cons this
  | case2 hc1 hc2 =>
      intro hu
      rw [replaceAll_nil]
      exact hu
  | case3 a s' hcond hcond2 ih =>
      intro hu
      rw [replaceAll_cons (hb :: pt) [c] a s' hcond]
      rcases List.infix_cons_iff.mp hu with h | h
      · rw [List.cons_prefix_cons] at h
        refine List.IsPrefix.isInfix ?_
        rw [List.cons_prefix_cons]
        exact ⟨h.1, prefix_intact hb pt c s' ut h2 h.2⟩
      · exact List.infix_cons (ih h)

theorem writeError_write_fst (w : Sink) (bs : List Nat) :
    ((w.write bs).1).writeError = w.writeError := by
  cases h : w.writeError <;> simp [Sink.write, h]

theorem writeError_headerSet (w : Sink) (k v' : String) :
    (w.headerSet k v').writeError = w.writeError := rfl

theorem writeError_writeHeader (w : Sink) (code : Nat) :
    (w.writeHeader code).writeError = w.writeError := rfl

theorem writeError_HeadWrite (h : Head) (w : Sink) :
    (Head.Write h w).writeError = w.writeError := rfl

theorem write_of_some (w : Sink) (bs : List Nat) (e : String)
    (h : w.writeError = some e) : w.write bs = (w, some e) := by
  simp [Sink.write, h]

theorem write_fst_of_none (w : Sink) (bs : List Nat) (h : w.writeError = none) :
    (w.write bs).1 =
      { w with body := w.body ++ bs, events := w.events ++ [SinkEvent.write bs] } := by
  simp [Sink.write, h]

theorem headers_write_fst (w : Sink) (bs : List Nat) :
    ((w.write bs).1).headers = w.headers := by
  cases h : w.writeError <;> simp [Sink.write, h]

theorem body_headerSet (w : Sink) (k v' : String) :
    (w.headerSet k v').body = w.body := rfl

theorem body_writeHeader (w : Sink) (code : Nat) :
    (w.writeHeader code).body = w.body := rfl

theorem body_HeadWrite (h : Head) (w : Sink) :
    (Head.Write h w).body = w.body := rfl

/-- C1: the claim reads: after an HTML render in which template execution
fails, the pool's buffer count equals its pre-call value.  The code takes a
buffer from the pool and, on the template-error path, returns the error
without putting the buffer back: starting from a pool holding one buffer,
the failed render leaves the pool empty, so the count does not return to
its pre-call value (the success path does restore it). -/
theorem c1_html_template_error_leaks_pooled_buffer :
    HTML.Render hBoom ⟨1, 64⟩ wCap GoValue.other =
      (⟨0, 64⟩, wCap, RenderResult.err ("template: boom")) ∧
    (HTML.Render hHello ⟨1, 64⟩ wCap GoValue.other).1.available = 1 ∧
    (HTML.Render hHello ⟨1, 64⟩ wCap GoValue.other).2.2 = RenderResult.ok ∧
    (0 : Nat) ≠ 1 := by
  refine ⟨rfl, rfl, rfl, by decide⟩

/-- C2: counterexample to the claim that a sink write failure is returned
to the caller by every renderer: `Data.Render` on a sink that rejects every
write returns `nil` (no error), with no body stored. -/
theorem c2_write_failure_swallowed_cex :
    (Data.Render dData wReject (GoValue.bytes [1, 2, 3])).2 = RenderResult.ok ∧
    (Data.Render dData wReject (GoValue.bytes [1, 2, 3])).1.body = [] := by
  exact ⟨rfl, rfl⟩

/-- C2 (amended): serialization and template-execution errors are returned
to the caller, but a body-write failure of the sink is ignored by `Data`,
`Text`, `HTML`, buffered `JSON`, `JSONP` and `XML` (the render returns
`nil` despite the failed write); only streaming-mode JSON returns the
sink's write failure, through the encoder. -/
theorem c2_sink_write_errors_ignored_except_streaming
    (d : Data) (t : Text) (h : HTML) (j js : JSON) (jp : JSONP) (x : XML)
    (lib : JsonLib) (xlib : XmlLib) (p : BufPool) (w : Sink)
    (v b : GoValue) (bs out r rj rx rs : List Nat) (s e : String)
    (hw : w.writeError = some e) :
    (Data.Render d w (GoValue.bytes bs)).2 = RenderResult.ok ∧
    (Text.Render t w (GoValue.str s)).2 = RenderResult.ok ∧
    (h.Templates.ExecuteTemplate h.Name b = Except.ok out →
      (HTML.Render h p w b).2.2 = RenderResult.ok) ∧
    (j.StreamingJSON = false →
      (if j.Indent then lib.MarshalIndent v else lib.Marshal v) = Except.ok r →
      (JSON.Render j lib w v).2 = RenderResult.ok) ∧
    ((if jp.Indent then lib.MarshalIndent v else lib.Marshal v) = Except.ok rj →
      (JSONP.Render jp lib w v).2 = RenderResult.ok) ∧
    ((if x.Indent then xlib.MarshalIndent v else xlib.Marshal v) = Except.ok rx →
      (XML.Render x xlib w v).2 = RenderResult.ok) ∧
    (js.StreamingJSON = true → lib.Marshal v = Except.ok rs →
      (JSON.Render js lib w v).2 = RenderResult.err e) := by
  refine ⟨rfl, rfl, ?_, ?_, ?_, ?_, ?_⟩
  · intro hex
    simp [HTML.Render, hex]
  · intro hs hm
    cases hi : j.Indent <;> rw [hi] at hm <;> simp at hm <;> simp [JSON.Render, hs, hi, hm]
  · intro hm
    cases hi : jp.Indent <;> rw [hi] at hm <;> simp at hm <;> simp [JSONP.Render, hi, hm]
  · intro hm
    cases hi : x.Indent <;> rw [hi] at hm <;> simp at hm <;> simp [XML.Render, hi, hm]
  · intro hs hm
    have h1 : (if w.headerCapable then Head.Write js.toHead w else w).writeError = some e := by
      cases hc : w.headerCapable <;> simp [writeError_HeadWrite, hw]
    have h2 : (if js.PrefixBytes.length > 0 then
        ((if w.headerCapable then Head.Write js.toHead w else w).write js.PrefixBytes).1
        else (if w.headerCapable then Head.Write js.toHead w else w)).writeError = some e := by
      split
      · rw [writeError_write_fst]
        exact h1
      · exact h1
    simp only [JSON.Render, hs, if_true, JSON.renderStreamingJSON, hm]
    rw [write_of_some _ _ e h2]

/-- C2 witness: the amended statement instantiated on a sink whose writes
fail with `connection reset`. -/
theorem c2_sink_write_errors_ignored_except_streaming_witness :
    (Data.Render dData wReject (GoValue.bytes [1, 2, 3])).2 = RenderResult.ok ∧
    (Text.Render tText wReject (GoValue.str ("hi"))).2 = RenderResult.ok ∧
    (HTML.Render hHello ⟨1, 64⟩ wReject GoValue.other).2.2 = RenderResult.ok ∧
    (JSON.Render jPlain libBrace wReject GoValue.other).2 = RenderResult.ok ∧
    (JSONP.Render jpCb libBrace wReject GoValue.other).2 = RenderResult.ok ∧
    (XML.Render xPlain xmlOkLib wReject GoValue.other).2 = RenderResult.ok ∧
    (JSON.Render jStream libBrace wReject GoValue.other).2 =
      RenderResult.err ("connection reset") := by
  have h := c2_sink_write_errors_ignored_except_streaming dData tText hHello jPlain jStream
    jpCb xPlain libBrace xmlOkLib ⟨1, 64⟩ wReject GoValue.other GoValue.other [1, 2, 3]
    (strBytes ("<p>hi</p>")) (strBytes ("\x7b\x7d")) (strBytes ("\x7b\x7d"))
    (strBytes ("<a></a>")) (strBytes ("\x7b\x7d")) ("hi") ("connection reset") rfl
  exact ⟨h.1, h.2.1, h.2.2.1 rfl, h.2.2.2.1 rfl rfl, h.2.2.2.2.1 rfl,
    h.2.2.2.2.2.1 rfl, h.2.2.2.2.2.2 rfl rfl⟩

/-- C3: counterexample to the claim that a type mismatch yields a checked
`InvalidInputKind` error: `Data.Render` on a non-byte value and
`Text.Render` on a non-string value end in a runtime type-assertion panic,
not an error return. -/
theorem c3_type_mismatch_cex :
    (Data.Render dData wCap (GoValue.str ("oops"))).2 = RenderResult.panicked ∧
    (Text.Render tText wCap (GoValue.bytes [1])).2 = RenderResult.panicked := by
  exact ⟨rfl, rfl⟩

/-- C3 (amended): on a value that is not a byte sequence, `Data.Render`
panics through its `[]byte` type assertion (and `Text.Render` likewise on
a value that is not a string); no checked error value is returned. -/
theorem c3_type_mismatch_is_panic (d : Data) (t : Text) (w : Sink) (v : GoValue) :
    ((∀ bs, v ≠ GoValue.bytes bs) → (Data.Render d w v).2 = RenderResult.panicked) ∧
    ((∀ s, v ≠ GoValue.str s) → (Text.Render t w v).2 = RenderResult.panicked) := by
  constructor
  · intro hv
    cases v with
    | bytes bs => exact absurd rfl (hv bs)
    | str s => rfl
    | other => rfl
  · intro hv
    cases v with
    | str s => exact absurd rfl (hv s)
    | bytes bs => rfl
    | other => rfl

/-- C3 witness: the amended statement instantiated at an opaque value. -/
theorem c3_type_mismatch_is_panic_witness :
    (Data.Render dData wCap GoValue.other).2 = RenderResult.panicked ∧
    (Text.Render tText wCap GoValue.other).2 = RenderResult.panicked := by
  have h := c3_type_mismatch_is_panic dData tText wCap GoValue.other
  exact ⟨h.1 (fun bs => by simp), h.2 (fun s => by simp)⟩

/-- C4: when serialization (buffered JSON, JSONP, XML) or template
execution (HTML) fails, the renderer returns the error with the sink
completely untouched: the returned sink equals the input sink, so no byte
was written and no header was set. -/
theorem c4_buffered_error_leaves_sink_untouched
    (j : JSON) (jp : JSONP) (x : XML) (h : HTML) (lib : JsonLib) (xlib : XmlLib)
    (p : BufPool) (w : Sink) (v b : GoValue) (e : String) :
    (j.StreamingJSON = false →
      (if j.Indent then lib.MarshalIndent v else lib.Marshal v) = Except.error e →
      JSON.Render j lib w v = (w, RenderResult.err e)) ∧
    ((if jp.Indent then lib.MarshalIndent v else lib.Marshal v) = Except.error e →
      JSONP.Render jp lib w v = (w, RenderResult.err e)) ∧
    ((if x.Indent then xlib.MarshalIndent v else xlib.Marshal v) = Except.error e →
      XML.Render x xlib w v = (w, RenderResult.err e)) ∧
    (h.Templates.ExecuteTemplate h.Name b = Except.error e →
      HTML.Render h p w b = (p.get, w, RenderResult.err e)) := by
  refine ⟨?_, ?_, ?_, ?_⟩
  · intro hs hm
    cases hi : j.Indent <;> rw [hi] at hm <;> simp at hm <;> simp [JSON.Render, hs, hi, hm]
  · intro hm
    cases hi : jp.Indent <;> rw [hi] at hm <;> simp at hm <;> simp [JSONP.Render, hi, hm]
  · intro hm
    cases hi : x.Indent <;> rw [hi] at hm <;> simp at hm <;> simp [XML.Render, hi, hm]
  · intro hex
    simp [HTML.Render, hex]

/-- C4 witness: the statement instantiated with failing JSON/XML libraries
and a failing template set on a fresh header-capable sink. -/
theorem c4_buffered_error_leaves_sink_untouched_witness :
    JSON.Render jPlain jsonFailLib wCap GoValue.other =
      (wCap, RenderResult.err ("json: unsupported type")) ∧
    JSONP.Render jpCb jsonFailLib wCap GoValue.other =
      (wCap, RenderResult.err ("json: unsupported type")) ∧
    XML.Render xPlain xmlFailLib wCap GoValue.other =
      (wCap, RenderResult.err ("xml: unsupported type")) ∧
    HTML.Render hBoom ⟨1, 64⟩ wCap GoValue.other =
      (⟨0, 64⟩, wCap, RenderResult.err ("template: boom")) := by
  have h := c4_buffered_error_leaves_sink_untouched jPlain jpCb xPlain hBoom jsonFailLib
    xmlFailLib ⟨1, 64⟩ wCap GoValue.other GoValue.other ("json: unsupported type")
  have hx := c4_buffered_error_leaves_sink_untouched jPlain jpCb xPlain hBoom jsonFailLib
    xmlFailLib ⟨1, 64⟩ wCap GoValue.other GoValue.other ("xml: unsupported type")
  have ht := c4_buffered_error_leaves_sink_untouched jPlain jpCb xPlain hBoom jsonFailLib
    xmlFailLib ⟨1, 64⟩ wCap GoValue.other GoValue.other ("template: boom")
  exact ⟨h.1 rfl rfl, h.2.1 rfl, hx.2.2.1 rfl, ht.2.2.2 rfl⟩

theorem headerGet_write_fst (w : Sink) (bs : List Nat) (k : String) :
    ((w.write bs).1).headerGet k = w.headerGet k := by
  cases h : w.writeError <;> simp [Sink.write, h, Sink.headerGet]

theorem headerGet_HeadWrite (h : Head) (w : Sink) :
    (Head.Write h w).headerGet ContentTypeKey = h.ContentType := by
  simp [Head.Write, Sink.writeHeader, Sink.headerSet, Sink.headerGet]

theorem headerGet_after_prefix (hd : Head) (w : Sink) (pfx : List Nat) :
    (if 0 < pfx.length then ((Head.Write hd w).write pfx).1
     else Head.Write hd w).headerGet ContentTypeKey = hd.ContentType := by
  split <;> simp [headerGet_write_fst, headerGet_HeadWrite]

/-- C9: `Data.Render` and `Text.Render` preserve a content-type header
already present on the header-capable sink before the call (the configured
default is applied only when none was set). -/
theorem c9_data_text_preserve_existing_content_type
    (d : Data) (t : Text) (w : Sink) (bs : List Nat) (s : String)
    (hcap : w.headerCapable = true) :
    (w.headerGet ContentTypeKey ≠ "" →
      (Data.Render d w (GoValue.bytes bs)).1.headerGet ContentTypeKey =
          w.headerGet ContentTypeKey ∧
      (Text.Render t w (GoValue.str s)).1.headerGet ContentTypeKey =
          w.headerGet ContentTypeKey) ∧
    (w.headerGet ContentTypeKey = "" →
      (Data.Render d w (GoValue.bytes bs)).1.headerGet ContentTypeKey = d.ContentType ∧
      (Text.Render t w (GoValue.str s)).1.headerGet ContentTypeKey = t.ContentType) := by
  constructor
  · intro hne
    constructor
    · simp [Data.Render, hcap, hne, headerGet_write_fst, headerGet_HeadWrite]
    · simp [Text.Render, hcap, hne, headerGet_write_fst, headerGet_HeadWrite]
  · intro heq
    constructor
    · simp [Data.Render, hcap, heq, headerGet_write_fst, headerGet_HeadWrite]
    · simp [Text.Render, hcap, heq, headerGet_write_fst, headerGet_HeadWrite]

/-- C9 witness: the statement instantiated on a sink with content-type
`text/custom` pre-set and on a fresh sink. -/
theorem c9_data_text_preserve_existing_content_type_witness :
    (Data.Render dData wCustom (GoValue.bytes [1])).1.headerGet ContentTypeKey =
        "text/custom" ∧
    (Text.Render tText wCustom (GoValue.str ("hi"))).1.headerGet ContentTypeKey =
        "text/custom" ∧
    (Data.Render dData wCap (GoValue.bytes [1])).1.headerGet ContentTypeKey =
        "application/octet-stream" := by
  have h1 := c9_data_text_preserve_existing_content_type dData tText wCustom [1] ("hi") rfl
  have h2 := c9_data_text_preserve_existing_content_type dData tText wCap [1] ("hi") rfl
  have hcustom : wCustom.headerGet ContentTypeKey = "text/custom" := rfl
  refine ⟨?_, ?_, ?_⟩
  · rw [(h1.1 (by rw [hcustom]; decide)).1, hcustom]
  · rw [(h1.1 (by rw [hcustom]; decide)).2, hcustom]
  · exact (h2.2 rfl).1

/-- C10: counterexample to the unconditional overwrite claim: a buffered
JSON render whose serialization fails returns before writing headers, so a
pre-existing content-type survives untouched instead of being overwritten
with the renderer's configured `application/json`. -/
theorem c10_overwrite_cex :
    (JSON.Render jPlain jsonFailLib wCustom GoValue.other).1.headerGet ContentTypeKey =
        "text/custom" ∧
    jPlain.ContentType = "application/json; charset=utf-8" ∧
    ("text/custom" : String) ≠ "application/json; charset=utf-8" := by
  refine ⟨rfl, rfl, by decide⟩

/-- C10 (amended): whenever the JSON (both modes), JSONP, XML or HTML
renderer writes headers — always in streaming mode, and on every render
whose serialization or template execution succeeds in the buffered modes —
a pre-existing content-type on the header-capable sink is overwritten with
the renderer's configured content-type; a failing buffered render leaves
the headers untouched, and only `Data` (and `Text`) preserve a pre-existing
content-type when they write headers. -/
theorem c10_other_renderers_overwrite_content_type
    (j js : JSON) (jp : JSONP) (x : XML) (h : HTML) (d : Data)
    (lib : JsonLib) (xlib : XmlLib) (p : BufPool) (w : Sink)
    (v b : GoValue) (r rj rx out bs : List Nat)
    (hcap : w.headerCapable = true) :
    (j.StreamingJSON = false →
      (if j.Indent then lib.MarshalIndent v else lib.Marshal v) = Except.ok r →
      (JSON.Render j lib w v).1.headerGet ContentTypeKey = j.ContentType) ∧
    (js.StreamingJSON = true →
      (JSON.Render js lib w v).1.headerGet ContentTypeKey = js.ContentType) ∧
    ((if jp.Indent then lib.MarshalIndent v else lib.Marshal v) = Except.ok rj →
      (JSONP.Render jp lib w v).1.headerGet ContentTypeKey = jp.ContentType) ∧
    ((if x.Indent then xlib.MarshalIndent v else xlib.Marshal v) = Except.ok rx →
      (XML.Render x xlib w v).1.headerGet ContentTypeKey = x.ContentType) ∧
    (h.Templates.ExecuteTemplate h.Name b = Except.ok out →
      (HTML.Render h p w b).2.1.headerGet ContentTypeKey = h.ContentType) ∧
    (w.headerGet ContentTypeKey ≠ "" →
      (Data.Render d w (GoValue.bytes bs)).1.headerGet ContentTypeKey =
        w.headerGet ContentTypeKey) := by
  refine ⟨?_, ?_, ?_, ?_, ?_, ?_⟩
  · intro hs hm
    cases hi : j.Indent <;> rw [hi] at hm <;> simp at hm <;>
      simp [JSON.Render, hs, hi, hm, hcap, headerGet_write_fst, headerGet_HeadWrite,
        headerGet_after_prefix]
  · intro hs
    simp only [JSON.Render, hs, if_true, JSON.renderStreamingJSON, hcap]
    have key : (if js.PrefixBytes.length > 0 then
        ((Head.Write js.toHead w).write js.PrefixBytes).1
        else Head.Write js.toHead w).headerGet ContentTypeKey = js.ContentType := by
      split <;> simp [headerGet_write_fst, headerGet_HeadWrite]
    cases hm : lib.Marshal v with
    | error e => simp [hm, hcap, key]
    | ok bs =>
        rcases h2 : (if js.PrefixBytes.length > 0 then
            ((Head.Write js.toHead w).write js.PrefixBytes).1
            else Head.Write js.toHead w).write (bs ++ [10]) with ⟨w₃, oe⟩
        have hw3 : w₃.headerGet ContentTypeKey = js.ContentType := by
          have hfst := headerGet_write_fst (if js.PrefixBytes.length > 0 then
            ((Head.Write js.toHead w).write js.PrefixBytes).1
            else Head.Write js.toHead w) (bs ++ [10]) ContentTypeKey
          rw [h2] at hfst
          rw [hfst, key]
        cases oe <;> simp [hm, hcap, h2, hw3]
  · intro hm
    cases hi : jp.Indent <;> rw [hi] at hm <;> simp at hm <;>
      simp [JSONP.Render, hi, hm, hcap, headerGet_write_fst, headerGet_HeadWrite,
        headerGet_after_prefix]
  · intro hm
    cases hi : x.Indent <;> rw [hi] at hm <;> simp at hm <;>
      simp [XML.Render, hi, hm, hcap, headerGet_write_fst, headerGet_HeadWrite,
        headerGet_after_prefix]
  · intro hex
    simp [HTML.Render, hex, hcap, headerGet_write_fst, headerGet_HeadWrite]
  · intro hne
    simp [Data.Render, hcap, hne, headerGet_write_fst, headerGet_HeadWrite]

/-- C10 witness: the amended statement at concrete renderers over the sink
with pre-existing content-type `text/custom`. -/
theorem c10_other_renderers_overwrite_content_type_witness :
    (JSON.Render jPlain libBrace wCustom GoValue.other).1.headerGet ContentTypeKey =
        "application/json; charset=utf-8" ∧
    (JSON.Render jStream libBrace wCustom GoValue.other).1.headerGet ContentTypeKey =
        "application/json; charset=utf-8" ∧
    (JSONP.Render jpCb libBrace wCustom GoValue.other).1.headerGet ContentTypeKey =
        "application/javascript; charset=utf-8" ∧
    (XML.Render xPlain xmlOkLib wCustom GoValue.other).1.headerGet ContentTypeKey =
        "text/xml; charset=utf-8" ∧
    (HTML.Render hHello ⟨1, 64⟩ wCustom GoValue.other).2.1.headerGet ContentTypeKey =
        "text/html; charset=utf-8" ∧
    (Data.Render dData wCustom (GoValue.bytes [1])).1.headerGet ContentTypeKey =
        "text/custom" := by
  have h := c10_other_renderers_overwrite_content_type jPlain jStream jpCb xPlain hHello
    dData libBrace xmlOkLib ⟨1, 64⟩ wCustom GoValue.other GoValue.other
    (strBytes ("\x7b\x7d")) (strBytes ("\x7b\x7d")) (strBytes ("<a></a>"))
    (strBytes ("<p>hi</p>")) [1] rfl
  have hcustom : wCustom.headerGet ContentTypeKey = "text/custom" := rfl
  refine ⟨h.1 rfl rfl, h.2.1 rfl, h.2.2.1 rfl, h.2.2.2.1 rfl, h.2.2.2.2.1 rfl, ?_⟩
  · rw [h.2.2.2.2.2 (by rw [hcustom]; decide), hcustom]

theorem strBytes_append (a b : String) :
    strBytes (a ++ b) = strBytes a ++ strBytes b := by
  simp [strBytes, String.data_append]

theorem body_write_fst (w : Sink) (bs : List Nat) (h : w.writeError = none) :
    ((w.write bs).1).body = w.body ++ bs := by
  simp [Sink.write, h]

/-- C8: the JSONP body is exactly the callback name, `(`, the JSON
serialization (indented if configured), `)`, `;`, and a single trailing
newline exactly when indenting. -/
theorem c8_jsonp_body_shape (j : JSONP) (lib : JsonLib) (w : Sink) (v : GoValue)
    (r : List Nat) (hw : w.body = []) (hwe : w.writeError = none)
    (hm : (if j.Indent then lib.MarshalIndent v else lib.Marshal v) = Except.ok r) :
    (JSONP.Render j lib w v).1.body =
      strBytes j.Callback ++ strBytes ("(") ++ r ++ strBytes (")") ++ strBytes (";") ++
        (if j.Indent then [10] else []) ∧
    (JSONP.Render j lib w v).2 = RenderResult.ok := by
  have h1e : (if w.headerCapable then Head.Write j.toHead w else w).writeError = none := by
    split <;> simp [writeError_HeadWrite, hwe]
  have h1b : (if w.headerCapable then Head.Write j.toHead w else w).body = [] := by
    split <;> simp [body_HeadWrite, hw]
  have hsemi : strBytes (");") = strBytes (")") ++ strBytes (";") := by decide
  cases hi : j.Indent <;> rw [hi] at hm <;> simp at hm <;>
    simp [JSONP.Render, hi, hm, body_write_fst, writeError_write_fst, h1e, h1b,
      hsemi, strBytes_append, List.append_assoc]

/-- C8 witness: with callback `cb` and a library serializing the input to
`{"a":1}`, the body is exactly `cb({"a":1});`. -/
theorem c8_jsonp_body_shape_witness :
    (JSONP.Render jpCb libAb1 wCap GoValue.other).1.body =
      strBytes ("cb(\x7b\"a\":1\x7d);") ∧
    (JSONP.Render jpCb libAb1 wCap GoValue.other).2 = RenderResult.ok := by
  have h := c8_jsonp_body_shape jpCb libAb1 wCap GoValue.other
    (strBytes ("\x7b\"a\":1\x7d")) rfl rfl rfl
  refine ⟨?_, h.2⟩
  rw [h.1]
  decide

theorem trailingNewlines_of_last_ne (z r : List Nat) (c : Nat)
    (hc : r.getLast? = some c) (h10 : c ≠ 10) : trailingNewlines (z ++ r) = 0 := by
  obtain ⟨r', rfl⟩ := List.getLast?_eq_some_iff.mp hc
  have hb : (c == 10) = false := by simpa using h10
  simp [trailingNewlines, List.reverse_append, List.takeWhile_cons, hb]

theorem trailingNewlines_of_append_nl (z r : List Nat) (c : Nat)
    (hc : r.getLast? = some c) (h10 : c ≠ 10) :
    trailingNewlines (z ++ r ++ [10]) = 1 := by
  obtain ⟨r', rfl⟩ := List.getLast?_eq_some_iff.mp hc
  have hb : (c == 10) = false := by simpa using h10
  simp [trailingNewlines, List.reverse_append, List.takeWhile_cons, hb]

/-- C6: with the indent option set, buffered JSON and XML bodies end in
exactly one newline byte (the serialized bytes themselves, which never end
in a newline, get exactly one appended); without indent the body does not
end in a newline. -/
theorem c6_indent_trailing_newline
    (j : JSON) (x : XML) (lib : JsonLib) (xlib : XmlLib) (w : Sink) (v : GoValue)
    (r rx : List Nat) (c cx : Nat)
    (hw : w.body = []) (hwe : w.writeError = none)
    (hs : j.StreamingJSON = false) (hu : j.UnEscapeHTML = false)
    (hr : r.getLast? = some c) (hc : c ≠ 10)
    (hrx : rx.getLast? = some cx) (hcx : cx ≠ 10) :
    (j.Indent = true → lib.MarshalIndent v = Except.ok r →
        trailingNewlines ((JSON.Render j lib w v).1.body) = 1) ∧
    (j.Indent = false → lib.Marshal v = Except.ok r →
        trailingNewlines ((JSON.Render j lib w v).1.body) = 0) ∧
    (x.Indent = true → xlib.MarshalIndent v = Except.ok rx →
        trailingNewlines ((XML.Render x xlib w v).1.body) = 1) ∧
    (x.Indent = false → xlib.Marshal v = Except.ok rx →
        trailingNewlines ((XML.Render x xlib w v).1.body) = 0) := by
  have h1e : (if w.headerCapable then Head.Write j.toHead w else w).writeError = none := by
    split <;> simp [writeError_HeadWrite, hwe]
  have h1ex : (if w.headerCapable then Head.Write x.toHead w else w).writeError = none := by
    split <;> simp [writeError_HeadWrite, hwe]
  have h2e : (if 0 < j.PrefixBytes.length then
      ((if w.headerCapable then Head.Write j.toHead w else w).write j.PrefixBytes).1
      else (if w.headerCapable then Head.Write j.toHead w else w)).writeError = none := by
    split <;> simp [writeError_write_fst, h1e]
  have h2ex : (if 0 < x.PrefixBytes.length then
      ((if w.headerCapable then Head.Write x.toHead w else w).write x.PrefixBytes).1
      else (if w.headerCapable then Head.Write x.toHead w else w)).writeError = none := by
    split <;> simp [writeError_write_fst, h1ex]
  refine ⟨?_, ?_, ?_, ?_⟩
  · intro hi hm
    simp [JSON.Render, hs, hi, hm, hu, body_write_fst, h2e]
    rw [← List.append_assoc]
    exact trailingNewlines_of_append_nl _ r c hr hc
  · intro hi hm
    simp [JSON.Render, hs, hi, hm, hu, body_write_fst, h2e]
    exact trailingNewlines_of_last_ne _ r c hr hc
  · intro hi hm
    simp [XML.Render, hi, hm, body_write_fst, h2ex]
    rw [← List.append_assoc]
    exact trailingNewlines_of_append_nl _ rx cx hrx hcx
  · intro hi hm
    simp [XML.Render, hi, hm, body_write_fst, h2ex]
    exact trailingNewlines_of_last_ne _ rx cx hrx hcx

/-- C6 witness: concrete indented and non-indented JSON/XML renders. -/
theorem c6_indent_trailing_newline_witness :
    trailingNewlines ((JSON.Render jIndent libBrace wCap GoValue.other).1.body) = 1 ∧
    trailingNewlines ((JSON.Render jPlain libBrace wCap GoValue.other).1.body) = 0 ∧
    trailingNewlines ((XML.Render xIndent xmlOkLib wCap GoValue.other).1.body) = 1 ∧
    trailingNewlines ((XML.Render xPlain xmlOkLib wCap GoValue.other).1.body) = 0 := by
  have h := c6_indent_trailing_newline jIndent xIndent libBrace xmlOkLib wCap GoValue.other
    (strBytes ("\x7b\x7d")) (strBytes ("<a></a>")) 125 62 rfl rfl rfl rfl
    (by decide) (by decide) (by decide) (by decide)
  have h2 := c6_indent_trailing_newline jPlain xPlain libBrace xmlOkLib wCap GoValue.other
    (strBytes ("\x7b\x7d")) (strBytes ("<a></a>")) 125 62 rfl rfl rfl rfl
    (by decide) (by decide) (by decide) (by decide)
  exact ⟨h.1 rfl rfl, h2.2.1 rfl rfl, h.2.2.1 rfl rfl, h2.2.2.2 rfl rfl⟩

/-- C7: with `UnEscapeHTML` enabled, buffered JSON replaces every
occurrence of the escape sequences `<`, `>`, `&` in the
serialized bytes (none remains in the body) and produces the literal
bytes `<`, `>`, `&` wherever the serialization contained an escape; with
`UnEscapeHTML` disabled the serialized bytes, escapes included, are
written unchanged. -/
theorem c7_unescape_html
    (j : JSON) (lib : JsonLib) (w : Sink) (v : GoValue) (r : List Nat)
    (hs : j.StreamingJSON = false)
    (hw : w.body = []) (hwe : w.writeError = none) (hp : j.PrefixBytes = [])
    (hm : (if j.Indent then lib.MarshalIndent v else lib.Marshal v) = Except.ok r) :
    (j.UnEscapeHTML = true →
      (JSON.Render j lib w v).1.body =
        unescapeHTML (if j.Indent then r ++ [10] else r) ∧
      ¬ escLt <:+: (JSON.Render j lib w v).1.body ∧
      ¬ escGt <:+: (JSON.Render j lib w v).1.body ∧
      ¬ escAmp <:+: (JSON.Render j lib w v).1.body ∧
      (escLt <:+: r → 60 ∈ (JSON.Render j lib w v).1.body) ∧
      (escGt <:+: r → 62 ∈ (JSON.Render j lib w v).1.body) ∧
      (escAmp <:+: r → 38 ∈ (JSON.Render j lib w v).1.body)) ∧
    (j.UnEscapeHTML = false →
      (JSON.Render j lib w v).1.body = (if j.Indent then r ++ [10] else r)) := by
  have h1e : (if w.headerCapable then Head.Write j.toHead w else w).writeError = none := by
    split <;> simp [writeError_HeadWrite, hwe]
  have h1b : (if w.headerCapable then Head.Write j.toHead w else w).body = [] := by
    split <;> simp [body_HeadWrite, hw]
  have e1 : escLt = 92 :: [117, 48, 48, 51, 99] := by decide
  have e2 : escGt = 92 :: [117, 48, 48, 51, 101] := by decide
  have e3 : escAmp = 92 :: [117, 48, 48, 50, 54] := by decide
  constructor
  · intro hue
    have hbody : (JSON.Render j lib w v).1.body =
        unescapeHTML (if j.Indent then r ++ [10] else r) := by
      cases hi : j.Indent <;> rw [hi] at hm <;> simp at hm <;>
        simp [JSON.Render, hs, hi, hue, hm, hp, body_write_fst, h1e, h1b]
    set ser := if j.Indent then r ++ [10] else r with hser
    have hrser : ∀ u : List Nat, u <:+: r → u <:+: ser := by
      intro u hu
      rw [hser]
      split
      · exact hu.trans (List.prefix_append r [10]).isInfix
      · exact hu
    have hnotLt : ¬ escLt <:+: unescapeHTML ser := by
      intro hocc
      unfold unescapeHTML at hocc
      have h1 := infix_transfer escAmp 38 (replaceAll escGt [62] (replaceAll escLt [60] ser))
        escLt (by decide) hocc
      have h2 := infix_transfer escGt 62 (replaceAll escLt [60] ser) escLt (by decide) h1
      exact replaceAll_no_occurrence escLt 60 (by decide) (by decide) ser h2
    have hnotGt : ¬ escGt <:+: unescapeHTML ser := by
      intro hocc
      unfold unescapeHTML at hocc
      have h1 := infix_transfer escAmp 38 (replaceAll escGt [62] (replaceAll escLt [60] ser))
        escGt (by decide) hocc
      exact replaceAll_no_occurrence escGt 62 (by decide) (by decide)
        (replaceAll escLt [60] ser) h1
    have hnotAmp : ¬ escAmp <:+: unescapeHTML ser := by
      intro hocc
      unfold unescapeHTML at hocc
      exact replaceAll_no_occurrence escAmp 38 (by decide) (by decide)
        (replaceAll escGt [62] (replaceAll escLt [60] ser)) hocc
    have hmemLt : escLt <:+: r → 60 ∈ unescapeHTML ser := by
      intro hr
      unfold unescapeHTML
      have h1 := replaceAll_mem_rep escLt 60 (by decide) ser (hrser _ hr)
      have h2 := replaceAll_mem_preserved escGt 62 60 (by decide) _ h1
      exact replaceAll_mem_preserved escAmp 38 60 (by decide) _ h2
    have hmemGt : escGt <:+: r → 62 ∈ unescapeHTML ser := by
      intro hr
      unfold unescapeHTML
      have hser1 : (92 :: [117, 48, 48, 51, 101] : List Nat) <:+: ser := by
        rw [← e2]
        exact hrser _ hr
      have h1 := other_occurrence_preserved 92 [117, 48, 48, 51, 99] [117, 48, 48, 51, 101]
        60 (by decide) (by decide) (by decide) (by decide) ser hser1
      rw [← e1, ← e2] at h1
      have h2 := replaceAll_mem_rep escGt 62 (by decide) (replaceAll escLt [60] ser) h1
      exact replaceAll_mem_preserved escAmp 38 62 (by decide) _ h2
    have hmemAmp : escAmp <:+: r → 38 ∈ unescapeHTML ser := by
      intro hr
      unfold unescapeHTML
      have hser1 : (92 :: [117, 48, 48, 50, 54] : List Nat) <:+: ser := by
        rw [← e3]
        exact hrser _ hr
      have h1 := other_occurrence_preserved 92 [117, 48, 48, 51, 99] [117, 48, 48, 50, 54]
        60 (by decide) (by decide) (by decide) (by decide) ser hser1
      rw [← e1] at h1
      have h1' : escAmp <:+: replaceAll escLt [60] ser := by
        rw [e3]
        exact h1
      have h2 := other_occurrence_preserved 92 [117, 48, 48, 51, 101] [117, 48, 48, 50, 54]
        62 (by decide) (by decide) (by decide) (by decide)
        (replaceAll escLt [60] ser) (by rw [← e3]; exact h1')
      rw [← e2, ← e3] at h2
      have h3 := replaceAll_mem_rep escAmp 38 (by decide)
        (replaceAll escGt [62] (replaceAll escLt [60] ser)) h2
      exact h3
    rw [hbody]
    exact ⟨rfl, hnotLt, hnotGt, hnotAmp, hmemLt, hmemGt, hmemAmp⟩
  · intro hue
    cases hi : j.Indent <;> rw [hi] at hm <;> simp at hm <;>
      simp [JSON.Render, hs, hi, hue, hm, hp, body_write_fst, h1e, h1b]

/-- C7 witness: a serialization containing all three escape sequences,
rendered with and without `UnEscapeHTML`. -/
theorem c7_unescape_html_witness :
    (JSON.Render jUnescape libEsc wCap GoValue.other).1.body =
      strBytes ("\x7b\"a\":\"<b> &\"\x7d") ∧
    (JSON.Render jPlain libEsc wCap GoValue.other).1.body =
      strBytes ("\x7b\"a\":\"\\u003cb\\u003e \\u0026\"\x7d") ∧
    60 ∈ (JSON.Render jUnescape libEsc wCap GoValue.other).1.body ∧
    ¬ escLt <:+: (JSON.Render jUnescape libEsc wCap GoValue.other).1.body := by
  have h := c7_unescape_html jUnescape libEsc wCap GoValue.other
    (strBytes ("\x7b\"a\":\"\\u003cb\\u003e \\u0026\"\x7d")) rfl rfl rfl rfl rfl
  have h2 := c7_unescape_html jPlain libEsc wCap GoValue.other
    (strBytes ("\x7b\"a\":\"\\u003cb\\u003e \\u0026\"\x7d")) rfl rfl rfl rfl rfl
  have ht := h.1 rfl
  refine ⟨?_, ?_, ?_, ht.2.1⟩
  · rw [ht.1]
    simp only [jUnescape, jPlain]
    simp only [Bool.false_eq_true, if_false]
    simp [unescapeHTML, replaceAll, escLt, escGt, escAmp, strBytes]
  · have := h2.2 rfl
    rw [this]
    rfl
  · exact ht.2.2.2.2.1 (by decide)

theorem discipline_data (d : Data) (w : Sink) (v : GoValue) (hev : w.events = []) :
    headerDiscipline w.headerCapable (Data.Render d w v).2
      ((Data.Render d w v).1.events) := by
  cases hcap : w.headerCapable <;> cases v <;> cases hwe : w.writeError <;>
    simp [Data.Render, headerDiscipline, Head.Write, Sink.headerSet, Sink.writeHeader,
      Sink.write, hev, hcap, hwe, headersBeforeBodyB, noHeaderEvents, hasBodyWrite,
      statusWrites, SinkEvent.isHeaderEvent]

theorem discipline_text (t : Text) (w : Sink) (v : GoValue) (hev : w.events = []) :
    headerDiscipline w.headerCapable (Text.Render t w v).2
      ((Text.Render t w v).1.events) := by
  cases hcap : w.headerCapable <;> cases v <;> cases hwe : w.writeError <;>
    simp [Text.Render, headerDiscipline, Head.Write, Sink.headerSet, Sink.writeHeader,
      Sink.write, hev, hcap, hwe, headersBeforeBodyB, noHeaderEvents, hasBodyWrite,
      statusWrites, SinkEvent.isHeaderEvent]

theorem discipline_html (h : HTML) (p : BufPool) (w : Sink) (b : GoValue)
    (hev : w.events = []) :
    headerDiscipline w.headerCapable (HTML.Render h p w b).2.2
      ((HTML.Render h p w b).2.1.events) := by
  cases hcap : w.headerCapable <;> cases hex : h.Templates.ExecuteTemplate h.Name b <;>
    cases hwe : w.writeError <;>
    simp [HTML.Render, hex, headerDiscipline, Head.Write, Sink.headerSet, Sink.writeHeader,
      Sink.write, hev, hcap, hwe, headersBeforeBodyB, noHeaderEvents, hasBodyWrite,
      statusWrites, SinkEvent.isHeaderEvent]

theorem discipline_json (j : JSON) (lib : JsonLib) (w : Sink) (v : GoValue)
    (hev : w.events = []) (hs : j.StreamingJSON = false) :
    headerDiscipline w.headerCapable (JSON.Render j lib w v).2
      ((JSON.Render j lib w v).1.events) := by
  cases hi : j.Indent
  · cases hm : lib.Marshal v <;> cases hcap : w.headerCapable <;>
      cases hwe : w.writeError <;> by_cases hp : 0 < j.PrefixBytes.length <;>
      simp [JSON.Render, hs, hi, hm, hp, headerDiscipline, Head.Write, Sink.headerSet,
        Sink.writeHeader, Sink.write, hev, hcap, hwe, headersBeforeBodyB, noHeaderEvents,
        hasBodyWrite, statusWrites, SinkEvent.isHeaderEvent]
  · cases hm : lib.MarshalIndent v <;> cases hcap : w.headerCapable <;>
      cases hwe : w.writeError <;> by_cases hp : 0 < j.PrefixBytes.length <;>
      simp [JSON.Render, hs, hi, hm, hp, headerDiscipline, Head.Write, Sink.headerSet,
        Sink.writeHeader, Sink.write, hev, hcap, hwe, headersBeforeBodyB, noHeaderEvents,
        hasBodyWrite, statusWrites, SinkEvent.isHeaderEvent]

theorem discipline_streaming (j : JSON) (lib : JsonLib) (w : Sink) (v : GoValue)
    (hev : w.events = []) (hs : j.StreamingJSON = true) :
    headerDiscipline w.headerCapable (JSON.Render j lib w v).2
      ((JSON.Render j lib w v).1.events) := by
  cases hm : lib.Marshal v <;> cases hcap : w.headerCapable <;>
    cases hwe : w.writeError <;> by_cases hp : 0 < j.PrefixBytes.length <;>
    simp [JSON.Render, JSON.renderStreamingJSON, hs, hm, hp, headerDiscipline, Head.Write,
      Sink.headerSet, Sink.writeHeader, Sink.write, hev, hcap, hwe, headersBeforeBodyB,
      noHeaderEvents, hasBodyWrite, statusWrites, SinkEvent.isHeaderEvent]

theorem discipline_jsonp (j : JSONP) (lib : JsonLib) (w : Sink) (v : GoValue)
    (hev : w.events = []) :
    headerDiscipline w.headerCapable (JSONP.Render j lib w v).2
      ((JSONP.Render j lib w v).1.events) := by
  cases hi : j.Indent
  · cases hm : lib.Marshal v <;> cases hcap : w.headerCapable <;>
      cases hwe : w.writeError <;>
      simp [JSONP.Render, hi, hm, headerDiscipline, Head.Write, Sink.headerSet,
        Sink.writeHeader, Sink.write, hev, hcap, hwe, headersBeforeBodyB, noHeaderEvents,
        hasBodyWrite, statusWrites, SinkEvent.isHeaderEvent]
  · cases hm : lib.MarshalIndent v <;> cases hcap : w.headerCapable <;>
      cases hwe : w.writeError <;>
      simp [JSONP.Render, hi, hm, headerDiscipline, Head.Write, Sink.headerSet,
        Sink.writeHeader, Sink.write, hev, hcap, hwe, headersBeforeBodyB, noHeaderEvents,
        hasBodyWrite, statusWrites, SinkEvent.isHeaderEvent]

theorem discipline_xml (x : XML) (xlib : XmlLib) (w : Sink) (v : GoValue)
    (hev : w.events = []) :
    headerDiscipline w.headerCapable (XML.Render x xlib w v).2
      ((XML.Render x xlib w v).1.events) := by
  cases hi : x.Indent
  · cases hm : xlib.Marshal v <;> cases hcap : w.headerCapable <;>
      cases hwe : w.writeError <;> by_cases hp : 0 < x.PrefixBytes.length <;>
      simp [XML.Render, hi, hm, hp, headerDiscipline, Head.Write, Sink.headerSet,
        Sink.writeHeader, Sink.write, hev, hcap, hwe, headersBeforeBodyB, noHeaderEvents,
        hasBodyWrite, statusWrites, SinkEvent.isHeaderEvent]
  · cases hm : xlib.MarshalIndent v <;> cases hcap : w.headerCapable <;>
      cases hwe : w.writeError <;> by_cases hp : 0 < x.PrefixBytes.length <;>
      simp [XML.Render, hi, hm, hp, headerDiscipline, Head.Write, Sink.headerSet,
        Sink.writeHeader, Sink.write, hev, hcap, hwe, headersBeforeBodyB, noHeaderEvents,
        hasBodyWrite, statusWrites, SinkEvent.isHeaderEvent]

/-- C5: counterexample to "the header write happens exactly once per render
call" on a header-capable sink: a buffered JSON render whose serialization
fails returns before `Head.Write`, so the call performs zero status
writes. -/
theorem c5_failed_render_writes_no_header_cex :
    wCap.headerCapable = true ∧
    statusWrites ((JSON.Render jPlain jsonFailLib wCap GoValue.other).1.events) = 0 := by
  exact ⟨rfl, rfl⟩

/-- C5 (amended): for every renderer, all header events of a render call
precede all body writes; on a sink without header capability no header
event occurs; on a header-capable sink the status is written at most once
per call, and exactly once on every call that succeeds or writes any body
byte (a failing buffered call writes neither headers nor body). -/
theorem c5_header_discipline
    (d : Data) (t : Text) (h : HTML) (j js : JSON) (jp : JSONP) (x : XML)
    (lib : JsonLib) (xlib : XmlLib) (p : BufPool) (w : Sink) (v : GoValue)
    (hev : w.events = []) :
    headerDiscipline w.headerCapable (Data.Render d w v).2
      ((Data.Render d w v).1.events) ∧
    headerDiscipline w.headerCapable (Text.Render t w v).2
      ((Text.Render t w v).1.events) ∧
    headerDiscipline w.headerCapable (HTML.Render h p w v).2.2
      ((HTML.Render h p w v).2.1.events) ∧
    (j.StreamingJSON = false →
      headerDiscipline w.headerCapable (JSON.Render j lib w v).2
        ((JSON.Render j lib w v).1.events)) ∧
    (js.StreamingJSON = true →
      headerDiscipline w.headerCapable (JSON.Render js lib w v).2
        ((JSON.Render js lib w v).1.events)) ∧
    headerDiscipline w.headerCapable (JSONP.Render jp lib w v).2
      ((JSONP.Render jp lib w v).1.events) ∧
    headerDiscipline w.headerCapable (XML.Render x xlib w v).2
      ((XML.Render x xlib w v).1.events) := by
  exact ⟨discipline_data d w v hev, discipline_text t w v hev,
    discipline_html h p w v hev,
    fun hs => discipline_json j lib w v hev hs,
    fun hs => discipline_streaming js lib w v hev hs,
    discipline_jsonp jp lib w v hev,
    discipline_xml x xlib w v hev⟩

/-- C5 witness: the amended discipline at concrete renderers on a fresh
header-capable sink. -/
theorem c5_header_discipline_witness :
    headerDiscipline true (Data.Render dData wCap (GoValue.bytes [1])).2
      ((Data.Render dData wCap (GoValue.bytes [1])).1.events) ∧
    headerDiscipline true (JSON.Render jStream libBrace wCap GoValue.other).2
      ((JSON.Render jStream libBrace wCap GoValue.other).1.events) ∧
    headerDiscipline true (XML.Render xPlain xmlOkLib wCap GoValue.other).2
      ((XML.Render xPlain xmlOkLib wCap GoValue.other).1.events) := by
  have h := c5_header_discipline dData tText hHello jPlain jStream jpCb xPlain libBrace
    xmlOkLib ⟨1, 64⟩ wCap (GoValue.bytes [1]) rfl
  have h2 := c5_header_discipline dData tText hHello jPlain jStream jpCb xPlain libBrace
    xmlOkLib ⟨1, 64⟩ wCap GoValue.other rfl
  exact ⟨h.1, h2.2.2.2.2.1 rfl, h2.2.2.2.2.2.2⟩
